import Mathlib

/-!
Shallow embedding of the JSON.stringify engine of
`deps/chakrashim/core/lib/Runtime/Library/JSON.cpp` (ChakraCore runtime library).

Values are a tagged union; objects, arrays, callables and boxed primitives live on an
explicit heap indexed by addresses (`Nat`), so that identity-based cycle detection
(`JSONStack`) can be expressed.  External conversion routines (ToString/ToInteger on
doubles) are out of scope per the design document; a `Value.number` carries the results
of those conversions as data.  User function invocation (toJSON hooks, replacer
transforms) is an oracle `call : Nat → List Value → Value` carried by the context.

The serializer is written in fuel-indexed form: `strHelper (fuel+1)` performs one
`StringifySession::StrHelper` step, recursing through `strHelper fuel` for nested
members (the source guards recursion depth with `PROBE_STACK`; fuel exhaustion maps to
the resource-exhaustion error kind).  The cycle stack is threaded explicitly through
every serializer function — including across error exits — mirroring the fact that
`objectStack` is session state whose `Push`/`Pop` calls are plain statements, not a
scoped guard.
-/

/-- Error kinds raised by the stringify engine: `JSERR_JSONSerializeCircular`
(TypeError), `JSERR_OutOfBoundString` (RangeError), `Js::Throw::FatalInternalError`
(buffer-sizing invariant violation, JSON.cpp line 135), and the stack-depth probe
failure (`PROBE_STACK`). -/
inductive Err where
  | circularStructure
  | outOfBoundString
  | fatalInternal
  | outOfStack
deriving DecidableEq

/-- Host values as consumed through the engine's capability surface.  Immediate
(non-heap) values carry their payloads; `number` carries the IEEE double's finiteness
and the results of the external ToInteger (truncation toward zero) and ToString
conversions; `ref` is the identity of a heap-allocated object. -/
inductive Value where
  | undef
  | null
  | boolean (b : Bool)
  | integer (i : Int)
  | number (finite : Bool) (toInt : Int) (toStr : String)
  | int64 (i : Int)
  | uint64 (n : Nat)
  | str (s : String)
  | symbol (n : Nat)
  | ref (addr : Nat)
deriving DecidableEq

/-- Heap object payloads.  `array` is a genuine `Js::JavascriptArray` (with its
cross-site flag); its element slots may be holes (`Option.none`) — the storage of a
sparse array, which `DirectGetItem` reads as undefined while a generic `GetItem`
continues into the prototype chain.  `arrayExotic` models a value for which
`JavascriptOperators::IsArray` holds but `JavascriptArray::Is` does not (proxy/host
arrays), whose length and elements are read through ordinary property access;
the three boxed constructors carry the payloads of their unwrap conversions. -/
inductive ObjData where
  | plainObject (props : List (String × Value))
  | array (crossSite : Bool) (elems : List (Option Value))
  | arrayExotic (props : List (String × Value))
  | callable (fid : Nat)
  | numberObject (finite : Bool) (toInt : Int) (toStr : String)
  | stringObject (s : String)
  | booleanObject (b : Bool)
deriving DecidableEq

/-- A heap object: prototype link plus payload. -/
structure HeapObj where
  proto : Option Nat
  data : ObjData
deriving DecidableEq

/-- The capability surface consumed from the host: the heap, the function-invocation
oracle, and a bound on prototype-chain length (engine-maintained chains are finite
and acyclic; the bound makes the prototype walks structurally recursive). -/
structure Ctx where
  heap : Nat → Option HeapObj
  call : Nat → List Value → Value
  pwFuel : Nat

/-- Type classification mirroring `Js::TypeIds` as used by JSON.cpp. -/
inductive TypeId where
  | undefined
  | null
  | boolean
  | integer
  | number
  | int64Number
  | uint64Number
  | string
  | symbol
  | object
  | array
  | proxy
  | function
  | numberObject
  | stringObject
  | booleanObject
deriving DecidableEq

/-- Mirrors `Js::JavascriptOperators::GetTypeId`. -/
def typeIdOf (ctx : Ctx) : Value → TypeId
  | .undef => .undefined
  | .null => .null
  | .boolean _ => .boolean
  | .integer _ => .integer
  | .number _ _ _ => .number
  | .int64 _ => .int64Number
  | .uint64 _ => .uint64Number
  | .str _ => .string
  | .symbol _ => .symbol
  | .ref a =>
    match ctx.heap a with
    | some o =>
      match o.data with
      | .plainObject _ => .object
      | .array _ _ => .array
      | .arrayExotic _ => .proxy
      | .callable _ => .function
      | .numberObject _ _ _ => .numberObject
      | .stringObject _ => .stringObject
      | .booleanObject _ => .booleanObject
    | Option.none => .undefined

/-- Mirrors `JSON::IsValidReplacerType` (JSON.cpp lines 95-109): the name-producing
replacer-array element types. -/
def isValidReplacerType : TypeId → Bool
  | .integer => true
  | .string => true
  | .number => true
  | .numberObject => true
  | .int64Number => true
  | .uint64Number => true
  | .stringObject => true
  | _ => false

/-- Mirrors `Js::JavascriptConversion::IsCallable` on the modelled values. -/
def isCallable (ctx : Ctx) : Value → Bool
  | .ref a =>
    match ctx.heap a with
    | some ⟨_, .callable _⟩ => true
    | _ => false
  | _ => false

/-- Mirrors `IsJsNativeObject(value) || IsObject(value)` — the guard in front of the
toJSON filter (JSON.cpp line 494): holds exactly for live heap references. -/
def isObjectValue (ctx : Ctx) : Value → Bool
  | .ref a => (ctx.heap a).isSome
  | _ => false

/-- Own-property lookup by name (`GetPropertyQuery` on the object itself, i.e. one
level of the chain).  Genuine arrays, callables and boxed objects carry no own named
properties in this model. -/
def lookupOwnProperty (o : HeapObj) (name : String) : Option Value :=
  match o.data with
  | .plainObject props => (props.find? (fun p => p.1 = name)).map Prod.snd
  | .arrayExotic props => (props.find? (fun p => p.1 = name)).map Prod.snd
  | _ => Option.none

/-- The prototype of a heap object as a value (`GetPrototype`; objects at the end of
the chain have a null prototype, terminating the walks). -/
def protoVal (o : HeapObj) : Value :=
  match o.proto with
  | some p => .ref p
  | Option.none => .null

/-- Mirrors `Js::JavascriptOperators::GetProperty`: lookup walking the prototype
chain; `Option.none` models the `GetProperty` call returning false (absent). -/
def getPropertyAux (ctx : Ctx) (name : String) : Nat → Value → Option Value
  | 0, _ => Option.none
  | fuel+1, v =>
    match v with
    | .ref a =>
      match ctx.heap a with
      | some o =>
        match lookupOwnProperty o name with
        | some pv => some pv
        | Option.none => getPropertyAux ctx name fuel (protoVal o)
      | Option.none => Option.none
    | _ => Option.none

/-- Property lookup from a holder value, chain-walk bounded by the context. -/
def getProperty (ctx : Ctx) (holder : Value) (name : String) : Option Value :=
  getPropertyAux ctx name ctx.pwFuel holder

/-- Mirrors `Js::JavascriptArray::DirectGetItem`: own element storage only —
holes and out-of-range indices read as undefined, with no prototype lookup. -/
def directGetItem (elems : List (Option Value)) (i : Nat) : Value :=
  match elems.getD i Option.none with
  | Option.none => Value.undef
  | some v => v

/-- Mirrors `Js::JavascriptOperators::GetItem` as used by `Str(uint32, holder)` and
the replacer fill pass: on a genuine array a present own element is returned, while
holes and out-of-range indices continue as an ordinary property read on the
prototype chain; on other objects an ordinary property read under the decimal name.
`Option.none` models the `GetItem` call returning false (nothing found). -/
def getItem (ctx : Ctx) (a : Nat) (index : Nat) : Option Value :=
  match ctx.heap a with
  | some o =>
    match o.data with
    | .array _ elems =>
      match elems.getD index Option.none with
      | some v => some v
      | Option.none => getPropertyAux ctx (toString index) ctx.pwFuel (protoVal o)
    | _ => getProperty ctx (.ref a) (toString index)
  | Option.none => Option.none

/-- Modelled from the spec: `Js::JavascriptConversion::ToLength` (conversion routines
are external collaborators, §1): truncate toward zero, clamp to `[0, 2^53 - 1]`; the
non-numeric inputs reaching the one use in this file are modelled as 0. -/
def toLength (v : Option Value) : Nat :=
  match v with
  | some (.integer i) => (min i ((2:Int)^53 - 1)).toNat
  | some (.number _ ti _) => (min ti ((2:Int)^53 - 1)).toNat
  | some (.int64 i) => (min i ((2:Int)^53 - 1)).toNat
  | some (.uint64 n) => min n (2^53 - 1)
  | _ => 0

/-- Modelled from the spec: `Js::Constants::MaxCharCount`, the implementation's
maximum representable string length (§4.5: "the implementation's maximum
representable string size"; its definition lives outside the provided sources). -/
def MaxCharCount : Nat := 2147483647

/-- Mirrors `Js::JavascriptConversion::ToString` on the value shapes it is applied to
inside JSON.cpp (numbers and boxed number/string objects); payload-carried results of
the external conversion routines. -/
def conversionToString (ctx : Ctx) : Value → String
  | .number _ _ s => s
  | .int64 i => toString i
  | .uint64 n => toString n
  | .str s => s
  | .ref a =>
    match ctx.heap a with
    | some ⟨_, .numberObject _ _ s⟩ => s
    | some ⟨_, .stringObject s⟩ => s
    | _ => ""
  | _ => ""

/-- Lowercase hex digit, used by the `\u00XX` escape form. -/
def hexDigit (n : Nat) : Char :=
  if n < 10 then Char.ofNat (48 + n) else Char.ofNat (87 + n)

/-- Modelled from the spec: `Js::JSONString::Escape` (Library/JSONString.h, outside
the provided sources); §4.4's canonical JSON escaping of one code unit. -/
def escapeChar (c : Char) : String :=
  if c = '"' then "\\\""
  else if c = '\\' then "\\\\"
  else if c.toNat < 32 then
    if c.toNat = 8 then "\\b"
    else if c.toNat = 12 then "\\f"
    else if c = '\n' then "\\n"
    else if c.toNat = 13 then "\\r"
    else if c = '\t' then "\\t"
    else "\\u00" ++ String.mk [hexDigit (c.toNat / 16), hexDigit (c.toNat % 16)]
  else String.mk [c]

/-- Mirrors `StringifySession::Quote` (JSON.cpp line 1066): quote-and-escape. -/
def quote (s : String) : String :=
  "\"" ++ String.join (s.data.map escapeChar) ++ "\""

/-- First `n` characters of a string (`JavascriptString::NewCopyBuffer(buf, len)`). -/
def takeChars (s : String) (n : Nat) : String :=
  String.mk (s.data.take n)

/-- A run of `n` space characters (`JSONSpace::Buffer`). -/
def spaces (n : Nat) : String :=
  String.mk (List.replicate n ' ')

/-- The `max(0, min(10, i))` clamp applied to integral space arguments
(JSON.cpp lines 354 and 366, `JSONspaceSize = 10`). -/
def clampSpace (i : Int) : Nat :=
  (max 0 (min 10 i)).toNat

/-- Resolved replacer configuration (`StringifySession::InitReplacer` overloads):
none, an ordered deduplicated name table, or a transform callable. -/
inductive ReplacerConfig where
  | none
  | nameFilter (names : List String)
  | transform (fid : Nat)
deriving DecidableEq

/-- One stringify session: the capability context, the resolved replacer, and the
gap computed once by `CompleteInit` (`Option.none` = compact mode, the `gap` field
staying null). -/
structure Session where
  ctx : Ctx
  replacer : ReplacerConfig
  gap : Option String

/-- Mirrors `StringifySession::CompleteInit` (JSON.cpp lines 347-398): derive the gap
from the space argument.  Integer: clamp of ToInt32; Number-like (including boxed
numbers and int64/uint64): clamp of ToInteger; String-like (including boxed): first
`min(10, length)` characters; anything else leaves the gap null. -/
def completeInit (ctx : Ctx) (space : Value) : Option String :=
  match space with
  | .integer i =>
    let len := clampSpace i
    if len ≠ 0 then some (spaces len) else Option.none
  | .number _ ti _ =>
    let len := clampSpace ti
    if len ≠ 0 then some (spaces len) else Option.none
  | .int64 i =>
    let len := clampSpace i
    if len ≠ 0 then some (spaces len) else Option.none
  | .uint64 n =>
    let len := clampSpace n
    if len ≠ 0 then some (spaces len) else Option.none
  | .str s =>
    let len := min 10 s.length
    if len ≠ 0 then some (takeChars s len) else Option.none
  | .ref a =>
    match ctx.heap a with
    | some ⟨_, .numberObject _ ti _⟩ =>
      let len := clampSpace ti
      if len ≠ 0 then some (spaces len) else Option.none
    | some ⟨_, .stringObject s⟩ =>
      let len := min 10 s.length
      if len ≠ 0 then some (takeChars s len) else Option.none
    | _ => Option.none
  | _ => Option.none

/-- Name conversion of one replacer-array element, the `switch` of
`JSON::AddToNameTable` (JSON.cpp lines 114-129): Integer via `GetIntegerString`,
String as itself, Number/boxed forms via `ToString`; anything else produces no name. -/
def replacerItemName (ctx : Ctx) (item : Value) : Option String :=
  match item with
  | .integer i => some (toString i)
  | .str s => some s
  | .number _ _ s => some s
  | .int64 i => some (toString i)
  | .uint64 n => some (toString n)
  | .ref a =>
    match ctx.heap a with
    | some ⟨_, .numberObject _ _ s⟩ => some s
    | some ⟨_, .stringObject s⟩ => some s
    | _ => Option.none
  | _ => Option.none

/-- Mirrors `JSON::AddToNameTable` (JSON.cpp lines 111-145): append the element's
name when it is name-producing, raising `FatalInternalError` when the table is
already at the pre-counted size. -/
def addToNameTable (ctx : Ctx) (table : List String) (size : Nat) (item : Value) :
    Except Err (List String) :=
  match replacerItemName ctx item with
  | Option.none => .ok table
  | some s =>
    if table.length = size then .error .fatalInternal
    else .ok (table ++ [s])

/-- The counting pass over the replacer array (JSON.cpp lines 225-249). -/
def countValidReplacerItems (ctx : Ctx) : List Value → Nat
  | [] => 0
  | item :: rest =>
    (if isValidReplacerType (typeIdOf ctx item) then 1 else 0) +
      countValidReplacerItems ctx rest

/-- The fill pass over the replacer array (JSON.cpp lines 265-282), threading the
table through `addToNameTable`. -/
def fillNameTableAux (ctx : Ctx) (size : Nat) : List Value → List String →
    Except Err (List String)
  | [], table => .ok table
  | item :: rest, table =>
    match addToNameTable ctx table size item with
    | .error e => .error e
    | .ok t => fillNameTableAux ctx size rest t

/-- The fill pass started from the empty table. -/
def fillNameTable (ctx : Ctx) (items : List Value) (size : Nat) :
    Except Err (List String) :=
  fillNameTableAux ctx size items []

/-- Duplicate elimination over the filled name table (JSON.cpp lines 284-309): the
`propIdMap->TestAndSet` loop keeps the first occurrence of each resolved name and
drops later ones, preserving order.  Property-record identity coincides with string
equality (`GetOrAddPropertyRecord` canonicalizes by content). -/
def dedupNamesAux (seen : List String) : List String → List String
  | [] => []
  | n :: rest =>
    if n ∈ seen then dedupNamesAux seen rest
    else n :: dedupNamesAux (n :: seen) rest

/-- Duplicate elimination from an empty seen-set. -/
def dedupNames (ns : List String) : List String :=
  dedupNamesAux [] ns

/-- The replacer-array arm of `JSON::Stringify` (JSON.cpp lines 222-313): the
counting pass runs over `countItems`; when the count is nonzero the fill pass runs
over `fillItems` and the filled table is deduplicated (a zero count skips
allocation and fill, installing an explicit empty filter).  The two sequences
differ exactly when the code's two passes read the array through different
accessors: for a non-cross-site genuine array the count uses `DirectGetItem`
(lines 227-234, own storage only) while the fill re-reads through the
prototype-walking `GetItem` (lines 275-281). -/
def resolveReplacerTwoPass (ctx : Ctx) (countItems fillItems : List Value) :
    Except Err ReplacerConfig :=
  let count := countValidReplacerItems ctx countItems
  if count = 0 then .ok (.nameFilter [])
  else
    match fillNameTable ctx fillItems count with
    | .error e => .error e
    | .ok table => .ok (.nameFilter (dedupNames table))

/-- The replacer-array resolution when both passes read the same element sequence
(cross-site genuine arrays, read via `DirectGetItem` in both passes, lines 227-234
and 265-271; and array-like hosts, read via `GetItem` in both passes, lines
236-248 and 273-281). -/
def resolveReplacerArray (ctx : Ctx) (items : List Value) : Except Err ReplacerConfig :=
  resolveReplacerTwoPass ctx items items

/-- Mirrors `Js::JavascriptConversion::ToUInt32` on the length value read from a
non-genuine array replacer (JSON.cpp line 219); external conversion modelled on the
numeric payloads. -/
def toUInt32Val (v : Option Value) : Nat :=
  match v with
  | some (.integer i) => (i % (2:Int)^32).toNat
  | some (.number _ ti _) => (ti % (2:Int)^32).toNat
  | some (.int64 i) => (i % (2:Int)^32).toNat
  | some (.uint64 n) => n % 2^32
  | _ => 0

/-- The element sequence of a non-genuine (array-like) replacer array: indices
`0..length-1` read via `GetItem`, skipping absent ones — both the counting and the
fill pass of JSON.cpp (lines 236-248 and 273-282) iterate it this way. -/
def exoticItems (ctx : Ctx) (a : Nat) : List Value :=
  (List.range (toUInt32Val (getProperty ctx (.ref a) "length"))).filterMap
    (fun i => getItem ctx a i)

/-- Replacer resolution of `JSON::Stringify` (JSON.cpp lines 202-318): an array
yields a name filter, a callable yields a transform, anything else no replacer.
A genuine array is counted via `DirectGetItem`; its fill pass uses `DirectGetItem`
again only when the array is cross-site, and otherwise re-reads every index through
the prototype-walking `GetItem` (skipping indices where nothing is found). -/
def resolveReplacer (ctx : Ctx) (replacerArg : Option Value) : Except Err ReplacerConfig :=
  match replacerArg with
  | Option.none => .ok .none
  | some r =>
    match r with
    | .ref a =>
      match ctx.heap a with
      | some ⟨_, .array crossSite elems⟩ =>
        let countItems := (List.range elems.length).map (fun i => directGetItem elems i)
        if crossSite then resolveReplacerArray ctx countItems
        else
          resolveReplacerTwoPass ctx countItems
            ((List.range elems.length).filterMap (fun i => getItem ctx a i))
      | some ⟨_, .arrayExotic _⟩ => resolveReplacerArray ctx (exoticItems ctx a)
      | some ⟨_, .callable fid⟩ => .ok (.transform fid)
      | _ => .ok .none
    | _ => .ok .none

/-- Mirrors `JSON::Get_ToJSON` (JSON.cpp lines 459-483): walk the prototype chain of
`origValue` looking for an own property named `toJSON` that is callable; invoke the
first one found as `value.toJSON(key)` (receiver is the original value) and stop;
return `Option.none` when no level exposes a callable hook. -/
def getToJSONAux (ctx : Ctx) (key : String) (origValue : Value) :
    Nat → Value → Option Value
  | 0, _ => Option.none
  | fuel+1, cur =>
    match cur with
    | .ref a =>
      match ctx.heap a with
      | some o =>
        match lookupOwnProperty o "toJSON" with
        | some (.ref fa) =>
          match ctx.heap fa with
          | some ⟨_, .callable fid⟩ => some (ctx.call fid [origValue, .str key])
          | _ => getToJSONAux ctx key origValue fuel (protoVal o)
        | some _ => getToJSONAux ctx key origValue fuel (protoVal o)
        | Option.none => getToJSONAux ctx key origValue fuel (protoVal o)
      | Option.none => Option.none
    | _ => Option.none

/-- The boxed-primitive unwrap chain of `StrHelper` (JSON.cpp lines 518-535):
NumberObject via ToNumber, StringObject via ToString, BooleanObject via its stored
boolean; at most one unwrap, anything else unchanged. -/
def unwrapBoxed (ctx : Ctx) (v : Value) : Value :=
  match v with
  | .ref a =>
    match ctx.heap a with
    | some ⟨_, .numberObject fin ti ts⟩ => .number fin ti ts
    | some ⟨_, .stringObject s⟩ => .str s
    | some ⟨_, .booleanObject b⟩ => .boolean b
    | _ => v
  | _ => v

/-- The value-preprocessing prefix of `StringifySession::StrHelper` (JSON.cpp lines
485-535), in source order: the toJSON filter (guarded by the value being an object),
then the user-defined replacer transform, then the boxed-primitive unwrap. -/
def preprocessValue (sess : Session) (key : String) (value₀ : Value) (holder : Value) :
    Value :=
  let ctx := sess.ctx
  let value₁ :=
    if isObjectValue ctx value₀ then
      match getToJSONAux ctx key value₀ ctx.pwFuel value₀ with
      | some v => v
      | Option.none => value₀
    else value₀
  let value₂ :=
    match sess.replacer with
    | .transform fid => ctx.call fid [holder, .str key, value₁]
    | _ => value₁
  unwrapBoxed ctx value₂

/-- The cycle stack: `JSONStack`, modelled from the spec (§3 CycleStack;
Library/JSONStack.h is outside the provided sources) as the ordered list of object
identities with `Push` = cons, `Pop` = drop the top, `Has` = membership. -/
abbrev Stack := List Nat

/-- `JSONStack::Pop`. -/
def popStack : Stack → Stack
  | [] => []
  | _ :: t => t

/-- Result of a `Str`-family call: an error kind or an optional rendered fragment
(`Option.none` models the undefined var, i.e. an omitted value), paired with the
cycle stack as left by the call. -/
abbrev SRes := Except Err (Option String) × Stack

/-- Result of a composite serializer (`StringifyObject` / `StringifyArray`): these
always render a fragment on success. -/
abbrev ORes := Except Err String × Stack

/-- Shape of the recursive entry point passed down to the per-level bodies:
key, value, holder, current indent, stack in. -/
abbrev Recur := String → Value → Value → Nat → Stack → SRes

/-- Mirrors `StringifySession::GetIndentString` (JSON.cpp lines 966-979):
`count` copies of the gap, empty in compact mode. -/
def getIndentString (gap : Option String) (count : Nat) : String :=
  match gap with
  | some g => (List.replicate count g).foldl (fun a b => a ++ b) ""
  | Option.none => ""

/-- Mirrors `StringifySession::GetMemberSeparator` (JSON.cpp lines 981-991). -/
def getMemberSeparator (gap : Option String) (indentString : String) : String :=
  match gap with
  | some _ => ",\n" ++ indentString
  | Option.none => ","

/-- Mirrors `StringifySession::GetPropertySeparator` (JSON.cpp lines 950-964). -/
def getPropertySeparator (gap : Option String) : String :=
  match gap with
  | some _ => ": "
  | Option.none => ":"

/-- The member accumulator of `StringifyObject`: the concatenated fragments built by
the `ConcatStringBuilder`, plus the `isFirstMember` / `isEmpty` flags. -/
structure MemberAcc where
  out : String
  isFirstMember : Bool
  isEmpty : Bool
deriving DecidableEq

/-- Mirrors `StringifySession::Str(JavascriptString* key, PropertyId, holder, value)`
(JSON.cpp lines 429-457): when no value was handed in, fetch the property (own or
inherited) from the holder; a failed fetch yields undefined without entering
`StrHelper`. -/
def strKeyBody (sess : Session) (recur : Recur) (key : String) (holder : Value)
    (value? : Option Value) (indent : Nat) (st : Stack) : SRes :=
  match value? with
  | some v => recur key v holder indent st
  | Option.none =>
    match getProperty sess.ctx holder key with
    | Option.none => (.ok Option.none, st)
    | some v => recur key v holder indent st

/-- Mirrors `StringifySession::Str(uint32 index, RecyclableObject* holder)`
(JSON.cpp lines 400-427): on a non-cross-site genuine array the element is read
directly and an undefined element returns immediately (no preprocessing); otherwise
the element is fetched via `GetItem`, with absence and undefined both returning
immediately.  A present non-undefined element recurses under the decimal key. -/
def strIndexBody (sess : Session) (recur : Recur) (index : Nat) (holderAddr : Nat)
    (indent : Nat) (st : Stack) : SRes :=
  match sess.ctx.heap holderAddr with
  | some ⟨_, .array false elems⟩ =>
    let v := directGetItem elems index
    if v = .undef then (.ok Option.none, st)
    else recur (toString index) v (.ref holderAddr) indent st
  | _ =>
    match getItem sess.ctx holderAddr index with
    | Option.none => (.ok Option.none, st)
    | some v =>
      if v = .undef then (.ok Option.none, st)
      else recur (toString index) v (.ref holderAddr) indent st

/-- Mirrors `StringifySession::GetArrayElementString` (JSON.cpp lines 854-864): an
omitted element renders as the `null` literal. -/
def getArrayElementString (sess : Session) (recur : Recur) (index : Nat)
    (holderAddr : Nat) (indent : Nat) (st : Stack) : ORes :=
  match strIndexBody sess recur index holderAddr indent st with
  | (.error e, st') => (.error e, st')
  | (.ok Option.none, st') => (.ok "null", st')
  | (.ok (some s), st') => (.ok s, st')

/-- The element loop of `StringifyArray` (JSON.cpp lines 911-920): emit the member
separator before every element but the first, then the element fragment. -/
def arrayElemsLoop (sess : Session) (recur : Recur) (holderAddr : Nat) (cur : Nat)
    (sep : String) : Nat → Nat → String → Bool → Stack → ORes
  | _, 0, out, _, st => (.ok out, st)
  | k, n+1, out, isFirst, st =>
    match getArrayElementString sess recur k holderAddr cur st with
    | (.error e, st') => (.error e, st')
    | (.ok s, st') =>
      arrayElemsLoop sess recur holderAddr cur sep (k+1) n
        (out ++ (if isFirst then "" else sep) ++ s) false st'

/-- Mirrors `StringifySession::StringifyMemberObject` (JSON.cpp lines 993-1020): an
omitted member leaves the builder and both flags untouched; otherwise the member
separator (for non-first members), the quoted name, the property separator and the
value fragment are appended and the flags are cleared. -/
def stringifyMemberObject (sess : Session) (recur : Recur) (name : String)
    (holderVal : Value) (propertyValue : Option Value) (indent : Nat)
    (acc : MemberAcc) (st : Stack) : Except Err MemberAcc × Stack :=
  match strKeyBody sess recur name holderVal propertyValue indent st with
  | (.error e, st') => (.error e, st')
  | (.ok Option.none, st') => (.ok acc, st')
  | (.ok (some s), st') =>
    let pre :=
      if acc.isFirstMember then ""
      else getMemberSeparator sess.gap (getIndentString sess.gap indent)
    (.ok ⟨acc.out ++ pre ++ quote name ++ getPropertySeparator sess.gap ++ s,
          false, false⟩, st')

/-- The member loop of `StringifyObject`, threading the accumulator and the stack. -/
def stringifyMembersLoop (sess : Session) (recur : Recur) (selfVal : Value)
    (cur : Nat) : List (String × Option Value) → MemberAcc → Stack →
    Except Err MemberAcc × Stack
  | [], acc, st => (.ok acc, st)
  | m :: rest, acc, st =>
    match stringifyMemberObject sess recur m.1 selfVal m.2 cur acc st with
    | (.error e, st') => (.error e, st')
    | (.ok acc', st') => stringifyMembersLoop sess recur selfVal cur rest acc' st'

/-- Own enumerable properties in definition order, as walked by the default
enumeration path of `StringifyObject` (JSON.cpp lines 727-768). -/
def ownEnumerableProps : ObjData → List (String × Value)
  | .plainObject props => props
  | _ => []

/-- The final assembly of `StringifyObject` (JSON.cpp lines 818-848): no members
yield the empty-object literal regardless of gap; otherwise brace wrapping, with
newline/indent dressing when a gap is configured. -/
def assembleObject (gap : Option String) (indent : Nat) (acc : MemberAcc) : String :=
  if acc.isEmpty then "\x7b\x7d"
  else
    match gap with
    | some _ =>
      "\x7b" ++ "\n" ++ getIndentString gap (indent+1) ++ acc.out ++ "\n" ++
        getIndentString gap indent ++ "\x7d"
    | Option.none => "\x7b" ++ acc.out ++ "\x7d"

/-- Mirrors `StringifySession::StringifyObject` (JSON.cpp lines 622-852): with a
name-filter replacer iterate the stored filter list (values fetched by property
lookup, own or inherited); otherwise enumerate the object's own enumerable
properties (slot values handed to `Str` directly); then assemble. -/
def stringifyObjectBody (sess : Session) (recur : Recur) (selfVal : Value)
    (d : ObjData) (indent : Nat) (st : Stack) : ORes :=
  let cur := indent + 1
  let members : List (String × Option Value) :=
    match sess.replacer with
    | .nameFilter names => names.map (fun n => (n, Option.none))
    | _ => (ownEnumerableProps d).map (fun p => (p.1, some p.2))
  match stringifyMembersLoop sess recur selfVal cur members ⟨"", true, true⟩ st with
  | (.error e, st') => (.error e, st')
  | (.ok acc, st') => (.ok (assembleObject sess.gap indent acc), st')

/-- Mirrors `StringifySession::StringifyArray` (JSON.cpp lines 866-948): a genuine
array's length is its internal length; otherwise the length property is read through
`ToLength` and lengths at or beyond `MaxCharCount` raise the RangeError kind before
any element is visited.  Empty arrays yield the empty-array literal; a single
element skips the builder; otherwise the separator-joined element loop; non-empty
results get bracket (and gap) dressing. -/
def stringifyArrayBody (sess : Session) (recur : Recur) (a : Nat) (d : ObjData)
    (indent : Nat) (st : Stack) : ORes :=
  let cur := indent + 1
  let lengthE : Except Err Nat :=
    match d with
    | .array _ elems => .ok elems.length
    | _ =>
      let len := toLength (getProperty sess.ctx (.ref a) "length")
      if MaxCharCount ≤ len then .error .outOfBoundString else .ok len
  match lengthE with
  | .error e => (.error e, st)
  | .ok length =>
    if length = 0 then (.ok "[]", st)
    else
      let inner : ORes :=
        if length = 1 then getArrayElementString sess recur 0 a cur st
        else
          arrayElemsLoop sess recur a cur
            (getMemberSeparator sess.gap (getIndentString sess.gap cur))
            0 length "" true st
      match inner with
      | (.error e, st') => (.error e, st')
      | (.ok s, st') =>
        match sess.gap with
        | some _ =>
          (.ok ("[" ++ "\n" ++ getIndentString sess.gap cur ++ s ++ "\n" ++
                getIndentString sess.gap indent ++ "]"), st')
        | Option.none => (.ok ("[" ++ s ++ "]"), st')

/-- One `StringifySession::StrHelper` step (JSON.cpp lines 485-620): preprocess the
value, then dispatch — undefined/symbol omit; null/booleans/numbers/strings render
as scalars (non-finite doubles as `null`, int64/uint64 always finite as doubles);
callables omit; other live heap objects are checked against the cycle stack (a hit
raises the circular-structure TypeError with nothing emitted), pushed, serialized as
array or object, and popped only on the successful path. -/
def strHelperBody (sess : Session) (recur : Recur) (key : String) (value₀ : Value)
    (holder : Value) (indent : Nat) (st : Stack) : SRes :=
  let ctx := sess.ctx
  let value := preprocessValue sess key value₀ holder
  match value with
  | .undef => (.ok Option.none, st)
  | .symbol _ => (.ok Option.none, st)
  | .null => (.ok (some "null"), st)
  | .integer i => (.ok (some (toString i)), st)
  | .boolean b => (.ok (some (if b then "true" else "false")), st)
  | .int64 i => (.ok (some (toString i)), st)
  | .uint64 n => (.ok (some (toString n)), st)
  | .number fin _ ts => (.ok (some (if fin then ts else "null")), st)
  | .str s => (.ok (some (quote s)), st)
  | .ref a =>
    match ctx.heap a with
    | Option.none => (.ok Option.none, st)
    | some o =>
      match o.data with
      | .callable _ => (.ok Option.none, st)
      | .array cs elems =>
        if a ∈ st then (.error .circularStructure, st)
        else
          match stringifyArrayBody sess recur a (.array cs elems) indent (a :: st) with
          | (.error e, st') => (.error e, st')
          | (.ok s, st') => (.ok (some s), popStack st')
      | .arrayExotic props =>
        if a ∈ st then (.error .circularStructure, st)
        else
          match stringifyArrayBody sess recur a (.arrayExotic props) indent (a :: st) with
          | (.error e, st') => (.error e, st')
          | (.ok s, st') => (.ok (some s), popStack st')
      | d =>
        if a ∈ st then (.error .circularStructure, st)
        else
          match stringifyObjectBody sess recur (.ref a) d indent (a :: st) with
          | (.error e, st') => (.error e, st')
          | (.ok s, st') => (.ok (some s), popStack st')

/-- The fuel-indexed `StrHelper`: fuel exhaustion models the stack-depth probe
failing; one unit of fuel is one `StrHelper` activation. -/
def strHelper (sess : Session) : Nat → String → Value → Value → Nat → Stack → SRes
  | 0 => fun _ _ _ _ st => (.error .outOfStack, st)
  | fuel+1 => fun key value holder indent st =>
    strHelperBody sess (strHelper sess fuel) key value holder indent st

/-- Top-level `JSON::Stringify` (JSON.cpp lines 153-334) for a present value
argument: resolve the replacer, derive the gap, wrap the value as the sole property
of a synthetic holder (its identity `wrapperAddr`), and evaluate `Str("", holder)`
at depth 0 with an empty cycle stack.  The stack component of the result is the
session's cycle stack as the call left it. -/
def jsonStringifyWith (ctx : Ctx) (fuel : Nat) (wrapperAddr : Nat) (value : Value)
    (replacerArg : Option Value) (space : Value) : SRes :=
  match resolveReplacer ctx replacerArg with
  | .error e => (.error e, [])
  | .ok rc =>
    let sess : Session := ⟨ctx, rc, completeInit ctx space⟩
    strHelper sess fuel "" value (.ref wrapperAddr) 0 []

/-! Specification-side definitions (written from spec.md's words, for refinement
comparison against the source-derived definitions above), plus concrete contexts
used to instantiate theorems with hypotheses. -/

/-- Whether an object payload is a callable (`Js::JavascriptConversion::IsCallable`
on the heap payload). -/
def isCallableData : ObjData → Bool
  | .callable _ => true
  | _ => false

/-- The prototype chain starting at a value: the list of (identity, object) levels,
ending at the null prototype (walk bound as in `getPropertyAux`). -/
def protoChain (ctx : Ctx) : Nat → Value → List (Nat × HeapObj)
  | 0, _ => []
  | fuel+1, v =>
    match v with
    | .ref a =>
      match ctx.heap a with
      | some o => (a, o) :: protoChain ctx fuel (protoVal o)
      | Option.none => []
    | _ => []

/-- Whether one prototype level exposes an own callable property named `toJSON`,
returning the callable's function identity. -/
def ownCallableToJSON (ctx : Ctx) (o : HeapObj) : Option Nat :=
  match lookupOwnProperty o "toJSON" with
  | some (.ref fa) =>
    match ctx.heap fa with
    | some ⟨_, .callable fid⟩ => some fid
    | _ => Option.none
  | _ => Option.none

/-- Spec §4.3 step 1: walk the prototype chain from the value itself; at the first
level exposing a callable `toJSON`, invoke it as `value.toJSON(key)` and stop;
otherwise leave the value unchanged. -/
def applyToJSONHookSpec (ctx : Ctx) (key : String) (v : Value) : Value :=
  match (protoChain ctx ctx.pwFuel v).findSome? (fun p => ownCallableToJSON ctx p.2) with
  | some fid => ctx.call fid [v, .str key]
  | Option.none => v

/-- Spec §4.3 step 2: if a transform replacer is configured, invoke
`replacer(holder, key, value)` and replace the value with the result. -/
def applyReplacerTransformSpec (sess : Session) (holder : Value) (key : String)
    (v : Value) : Value :=
  match sess.replacer with
  | .transform fid => sess.ctx.call fid [holder, .str key, v]
  | _ => v

/-- Spec §4.3: the preprocessing pipeline — toJSON hook, then replacer transform,
then boxed-primitive unwrap, with no re-application of hook or replacer after the
unwrap. -/
def preprocessSpec (sess : Session) (key : String) (v : Value) (holder : Value) :
    Value :=
  unwrapBoxed sess.ctx
    (applyReplacerTransformSpec sess holder key (applyToJSONHookSpec sess.ctx key v))

/-- Spec §4.2: the number-like space arguments (including boxed numbers). -/
def isNumberLikeSpace (ctx : Ctx) (v : Value) : Bool :=
  match typeIdOf ctx v with
  | .integer => true
  | .number => true
  | .int64Number => true
  | .uint64Number => true
  | .numberObject => true
  | _ => false

/-- Spec §4.2: the string-like space arguments (including boxed strings). -/
def isStringLikeSpace (ctx : Ctx) (v : Value) : Bool :=
  match typeIdOf ctx v with
  | .string => true
  | .stringObject => true
  | _ => false

/-- The integral value of a number-like space argument (external ToInteger results,
truncation toward zero). -/
def spaceToInteger (ctx : Ctx) (v : Value) : Int :=
  match v with
  | .integer i => i
  | .number _ ti _ => ti
  | .int64 i => i
  | .uint64 n => n
  | .ref a =>
    match ctx.heap a with
    | some ⟨_, .numberObject _ ti _⟩ => ti
    | _ => 0
  | _ => 0

/-- The string value of a string-like space argument. -/
def spaceToString (ctx : Ctx) (v : Value) : String :=
  match v with
  | .str s => s
  | .ref a =>
    match ctx.heap a with
    | some ⟨_, .stringObject s⟩ => s
    | _ => ""
  | _ => ""

/-- Spec §4.2 IndentationResolver, from the spec's words: number-like → clamp to
[0,10] many spaces; string-like → first min(10, length) characters verbatim;
anything else → empty gap. -/
def gapSpec (ctx : Ctx) (space : Value) : String :=
  if isNumberLikeSpace ctx space then spaces (clampSpace (spaceToInteger ctx space))
  else if isStringLikeSpace ctx space then takeChars (spaceToString ctx space) 10
  else ""

/-- A recursive entry preserves the cycle stack across every successful call. -/
def PreservesStack (recur : Recur) : Prop :=
  ∀ key v holder indent st r st', recur key v holder indent st = (.ok r, st') → st' = st

/-- Concrete test heap: object with an undefined-valued member, an array with an
undefined element, a self-cycle, a replacer array with duplicates, a three-member
object, an object reaching the cycle, and an array-like host with an over-length
length property. -/
def exCtx : Ctx :=
  { heap := fun n =>
      if n = 0 then some ⟨Option.none, .plainObject [("a", .undef), ("b", .integer 1)]⟩
      else if n = 1 then
        some ⟨Option.none, .array false [some .undef, some (.integer 1)]⟩
      else if n = 2 then some ⟨Option.none, .plainObject [("self", .ref 2)]⟩
      else if n = 3 then
        some ⟨Option.none,
              .array false [some (.str "a"), some (.str "a"), some (.str "b"),
                            some (.str "a")]⟩
      else if n = 4 then
        some ⟨Option.none,
              .plainObject [("a", .integer 1), ("b", .integer 2), ("c", .integer 3)]⟩
      else if n = 6 then some ⟨Option.none, .plainObject [("a", .ref 2)]⟩
      else if n = 8 then
        some ⟨Option.none,
              .arrayExotic [("length", .number true 2147483648 "2147483648")]⟩
      else Option.none,
    call := fun _ _ => .str "X",
    pwFuel := 3 }

/-- Session over `exCtx` with no replacer and compact output. -/
def exSessNone : Session := ⟨exCtx, .none, Option.none⟩

/-- Session over `exCtx` with a transform replacer (whose oracle would substitute
the string `X` for anything it is invoked on). -/
def exSessT : Session := ⟨exCtx, .transform 7, Option.none⟩

/-- Session over `exCtx` with an explicit empty name filter and a two-space gap. -/
def exSessF0 : Session := ⟨exCtx, .nameFilter [], some "  "⟩

/-- Heap holding one genuine array of `MaxCharCount` null elements at address 0. -/
def bigCtx : Ctx :=
  { heap := fun n =>
      if n = 0 then
        some ⟨Option.none, .array false (List.replicate MaxCharCount (some .null))⟩
      else Option.none,
    call := fun _ _ => .undef,
    pwFuel := 1 }

/-- Session over `bigCtx`, no replacer, compact output. -/
def bigSess : Session := ⟨bigCtx, .none, Option.none⟩

/-- Heap exhibiting the divergence between the two replacer passes: address 0 holds
the object to stringify; address 1 a genuine non-cross-site replacer array of
length 3 with a hole at index 1; address 2 its prototype, exposing a name-producing
property under the name `1` — the `Array.prototype[1] = "b"` scenario. -/
def c9Ctx : Ctx :=
  { heap := fun n =>
      if n = 0 then some ⟨Option.none, .plainObject [("a", .integer 1)]⟩
      else if n = 1 then
        some ⟨some 2, .array false [some (.str "a"), Option.none, some (.str "c")]⟩
      else if n = 2 then some ⟨Option.none, .plainObject [("1", .str "b")]⟩
      else Option.none,
    call := fun _ _ => .undef,
    pwFuel := 3 }

/-! Helper lemmas about the replacer name table. -/

/-- An element produces a name exactly when its type is a valid replacer type. -/
theorem replacerItemName_isSome (ctx : Ctx) (item : Value) :
    (replacerItemName ctx item).isSome = isValidReplacerType (typeIdOf ctx item) := by
  cases item <;> simp [replacerItemName, typeIdOf, isValidReplacerType]
  case ref a =>
    cases hh : ctx.heap a with
    | none => simp [isValidReplacerType]
    | some o =>
      rcases o with ⟨p, d⟩
      cases d <;> simp [isValidReplacerType]

/-- The counting pass counts exactly the name-producing elements. -/
theorem countValid_eq (ctx : Ctx) :
    ∀ items, countValidReplacerItems ctx items =
      (items.filterMap (replacerItemName ctx)).length := by
  intro items
  induction items with
  | nil => simp [countValidReplacerItems]
  | cons it rest ih =>
    have hv := replacerItemName_isSome ctx it
    simp only [countValidReplacerItems, List.filterMap_cons]
    cases hn : replacerItemName ctx it with
    | none =>
      rw [hn] at hv
      simp only [Option.isSome_none] at hv
      rw [← hv]
      simpa using ih
    | some s =>
      rw [hn] at hv
      simp only [Option.isSome_some] at hv
      rw [← hv]
      simp [ih]
      omega

/-- The fill pass, started with room for all remaining name-producing elements,
never trips the `FatalInternalError` branch and appends exactly their names in
index order. -/
theorem fillNameTableAux_eq (ctx : Ctx) (size : Nat) :
    ∀ items table,
      table.length + (items.filterMap (replacerItemName ctx)).length ≤ size →
      fillNameTableAux ctx size items table
        = .ok (table ++ items.filterMap (replacerItemName ctx)) := by
  intro items
  induction items with
  | nil => intro table _; simp [fillNameTableAux]
  | cons it rest ih =>
    intro table h
    simp only [fillNameTableAux, addToNameTable]
    cases hn : replacerItemName ctx it with
    | none =>
      simp only [List.filterMap_cons, hn] at h ⊢
      exact ih table h
    | some s =>
      simp only [List.filterMap_cons, hn, List.length_cons] at h ⊢
      have hne : table.length ≠ size := by omega
      rw [if_neg hne]
      show fillNameTableAux ctx size rest (table ++ [s]) = _
      rw [ih (table ++ [s]) (by simp; omega)]
      simp

/-- C9: the buffer-sizing invariant between the two replacer passes is violated by
the code on a user-constructible input — the counting pass reads a non-cross-site
genuine array via `DirectGetItem` (own storage only, JSON.cpp lines 227-234), but
the fill pass re-reads it via the prototype-walking `GetItem` (lines 275-281), so
a sparse replacer array `["a", hole, "c"]` whose prototype carries a name-producing
element at the hole index yields a count of 2 while the fill finds a third name and
hits the `tableLen == size` branch of `AddToNameTable`: the whole call aborts with
`FatalInternalError` (line 135), whose own comment declares the sizing calculation
wrong.  The spec's claim states the code's evident intent; the mismatched accessors
are the slip. -/
theorem JSON_nameTable_overflow_bug :
    countValidReplacerItems c9Ctx
        ((List.range 3).map
          (fun i => directGetItem [some (.str "a"), Option.none, some (.str "c")] i))
      = 2 ∧
    (List.range 3).filterMap (fun i => getItem c9Ctx 1 i)
      = [.str "a", .str "b", .str "c"] ∧
    jsonStringifyWith c9Ctx 10 99 (.ref 0) (some (.ref 1)) .null
      = (.error .fatalInternal, []) :=
  ⟨rfl, rfl, rfl⟩

/-- C4: the resolved name filter is exactly the ordered first-occurrence-wins
deduplication of the name-producing entries in index order; and the replacer array
`["a","a","b","a"]` applied to `{a:1,b:2,c:3}` yields exactly the members `a` and
`b` in that order, dropping the unlisted key `c`. -/
theorem JSON_replacer_array_dedup :
    (∀ (ctx : Ctx) (elems : List Value),
       resolveReplacerArray ctx elems
         = .ok (.nameFilter (dedupNames (elems.filterMap (replacerItemName ctx))))) ∧
    jsonStringifyWith exCtx 10 99 (.ref 4) (some (.ref 3)) .null
      = (.ok (some "\x7b\"a\":1,\"b\":2\x7d"), []) := by
  constructor
  · intro ctx elems
    unfold resolveReplacerArray resolveReplacerTwoPass
    have hc := countValid_eq ctx elems
    by_cases h0 : countValidReplacerItems ctx elems = 0
    · rw [if_pos h0]
      have hnil : elems.filterMap (replacerItemName ctx) = [] := by
        rw [h0] at hc
        exact List.length_eq_zero.mp hc.symm
      rw [hnil]
      rfl
    · rw [if_neg h0]
      unfold fillNameTable
      rw [fillNameTableAux_eq ctx (countValidReplacerItems ctx elems) elems []
        (by simp [hc])]
      simp
  · rfl

/-! Helper lemmas for the gap computation. -/

theorem spaces_length (n : Nat) : (spaces n).length = n := by
  show (List.replicate n ' ').length = n
  exact List.length_replicate n ' '

theorem takeChars_length (s : String) (n : Nat) :
    (takeChars s n).length = min n s.length := by
  show (s.data.take n).length = min n s.data.length
  exact List.length_take n s.data

theorem clampSpace_le (i : Int) : clampSpace i ≤ 10 := by
  unfold clampSpace
  omega

theorem takeChars_of_len_zero (s : String) (n : Nat) (h : s.length = 0) :
    takeChars s n = "" := by
  have hd : s.data = [] := List.length_eq_zero.mp h
  unfold takeChars
  rw [hd, List.take_nil]

theorem optGetD_if (c : Prop) [Decidable c] (x : String) (hx : c → x = "") :
    ((if c then Option.none else some x).getD "") = x := by
  by_cases h : c
  · rw [if_pos h]
    exact (hx h).symm
  · rw [if_neg h]
    rfl

theorem takeChars_min (s : String) : takeChars s (min 10 s.length) = takeChars s 10 := by
  unfold takeChars
  congr 1
  show s.data.take (min 10 s.data.length) = s.data.take 10
  rcases le_total s.data.length 10 with h | h
  · rw [min_eq_right h, List.take_length, List.take_of_length_le h]
  · rw [min_eq_left h]

/-- C5: `CompleteInit` computes exactly the spec's gap — number-like space arguments
(including boxed) truncate toward zero and clamp to [0,10] space characters,
string-like ones contribute their first min(10, length) characters verbatim,
anything else yields the empty gap — and the resulting gap never exceeds 10
characters.  The gap is a session-constant in the embedding (every serializer
function reads `Session.gap`, none produces a new session), so it cannot change
during the session. -/
theorem JSON_gap_clamped (ctx : Ctx) (space : Value) :
    ((completeInit ctx space).getD "") = gapSpec ctx space ∧
    ((completeInit ctx space).getD "").length ≤ 10 := by
  have hmain : ((completeInit ctx space).getD "") = gapSpec ctx space := by
    cases space with
    | integer i =>
      simp [completeInit, gapSpec, isNumberLikeSpace, typeIdOf, spaceToInteger]
      exact optGetD_if _ _ (fun h => by rw [h]; rfl)
    | number fin ti ts =>
      simp [completeInit, gapSpec, isNumberLikeSpace, typeIdOf, spaceToInteger]
      exact optGetD_if _ _ (fun h => by rw [h]; rfl)
    | int64 i =>
      simp [completeInit, gapSpec, isNumberLikeSpace, typeIdOf, spaceToInteger]
      exact optGetD_if _ _ (fun h => by rw [h]; rfl)
    | uint64 n =>
      simp [completeInit, gapSpec, isNumberLikeSpace, typeIdOf, spaceToInteger]
      exact optGetD_if _ _ (fun h => by rw [h]; rfl)
    | str s =>
      simp [completeInit, gapSpec, isNumberLikeSpace, isStringLikeSpace, typeIdOf,
        spaceToString, takeChars_min]
      exact optGetD_if _ _ (fun h => takeChars_of_len_zero s 10 h)
    | undef =>
      simp [completeInit, gapSpec, isNumberLikeSpace, isStringLikeSpace, typeIdOf]
    | null =>
      simp [completeInit, gapSpec, isNumberLikeSpace, isStringLikeSpace, typeIdOf]
    | boolean b =>
      simp [completeInit, gapSpec, isNumberLikeSpace, isStringLikeSpace, typeIdOf]
    | symbol n =>
      simp [completeInit, gapSpec, isNumberLikeSpace, isStringLikeSpace, typeIdOf]
    | ref a =>
      cases hh : ctx.heap a with
      | none =>
        simp [completeInit, gapSpec, isNumberLikeSpace, isStringLikeSpace, typeIdOf, hh]
      | some o =>
        rcases o with ⟨p, d⟩
        cases d with
        | numberObject fin ti ts =>
          simp [completeInit, gapSpec, isNumberLikeSpace, typeIdOf, spaceToInteger, hh]
          exact optGetD_if _ _ (fun h => by rw [h]; rfl)
        | stringObject s =>
          simp [completeInit, gapSpec, isNumberLikeSpace, isStringLikeSpace, typeIdOf,
            spaceToString, hh, takeChars_min]
          exact optGetD_if _ _ (fun h => takeChars_of_len_zero s 10 h)
        | plainObject props =>
          simp [completeInit, gapSpec, isNumberLikeSpace, isStringLikeSpace, typeIdOf, hh]
        | array cs elems =>
          simp [completeInit, gapSpec, isNumberLikeSpace, isStringLikeSpace, typeIdOf, hh]
        | arrayExotic props =>
          simp [completeInit, gapSpec, isNumberLikeSpace, isStringLikeSpace, typeIdOf, hh]
        | callable fid =>
          simp [completeInit, gapSpec, isNumberLikeSpace, isStringLikeSpace, typeIdOf, hh]
        | booleanObject b =>
          simp [completeInit, gapSpec, isNumberLikeSpace, isStringLikeSpace, typeIdOf, hh]
  refine ⟨hmain, ?_⟩
  rw [hmain]
  unfold gapSpec
  split
  · rw [spaces_length]; exact clampSpace_le _
  · split
    · rw [takeChars_length]; omega
    · simp

/-! Helper lemmas for the toJSON prototype walk. -/

/-- The code's walk (`Get_ToJSON`) computes exactly "invoke the first chain level's
own callable `toJSON`, receiver being the original value". -/
theorem getToJSONAux_eq (ctx : Ctx) (key : String) (orig : Value) :
    ∀ fuel cur, getToJSONAux ctx key orig fuel cur =
      ((protoChain ctx fuel cur).findSome? (fun p => ownCallableToJSON ctx p.2)).map
        (fun fid => ctx.call fid [orig, .str key]) := by
  intro fuel
  induction fuel with
  | zero => intro cur; simp [getToJSONAux, protoChain]
  | succ f ih =>
    intro cur
    cases cur with
    | ref a =>
      cases hh : ctx.heap a with
      | none => simp [getToJSONAux, protoChain, hh]
      | some o =>
        simp only [getToJSONAux, protoChain, hh, List.findSome?_cons]
        cases hlk : lookupOwnProperty o "toJSON" with
        | none => simp [ownCallableToJSON, hlk, ih]
        | some tj =>
          cases tj with
          | ref fa =>
            cases hfa : ctx.heap fa with
            | none => simp [ownCallableToJSON, hlk, hfa, ih]
            | some fo =>
              rcases fo with ⟨p, fd⟩
              cases fd <;> simp [ownCallableToJSON, hlk, hfa, ih]
          | undef => simp [ownCallableToJSON, hlk, ih]
          | null => simp [ownCallableToJSON, hlk, ih]
          | boolean b => simp [ownCallableToJSON, hlk, ih]
          | integer i => simp [ownCallableToJSON, hlk, ih]
          | number fin ti ts => simp [ownCallableToJSON, hlk, ih]
          | int64 i => simp [ownCallableToJSON, hlk, ih]
          | uint64 n => simp [ownCallableToJSON, hlk, ih]
          | str s => simp [ownCallableToJSON, hlk, ih]
          | symbol n => simp [ownCallableToJSON, hlk, ih]
    | undef => simp [getToJSONAux, protoChain]
    | null => simp [getToJSONAux, protoChain]
    | boolean b => simp [getToJSONAux, protoChain]
    | integer i => simp [getToJSONAux, protoChain]
    | number fin ti ts => simp [getToJSONAux, protoChain]
    | int64 i => simp [getToJSONAux, protoChain]
    | uint64 n => simp [getToJSONAux, protoChain]
    | str s => simp [getToJSONAux, protoChain]
    | symbol n => simp [getToJSONAux, protoChain]

/-- The toJSON stage of `StrHelper` equals the spec's hook application. -/
theorem preprocess_stage1_eq (ctx : Ctx) (key : String) (v : Value) :
    (if isObjectValue ctx v then
       match getToJSONAux ctx key v ctx.pwFuel v with
       | some w => w
       | Option.none => v
     else v) = applyToJSONHookSpec ctx key v := by
  unfold applyToJSONHookSpec
  rw [getToJSONAux_eq]
  cases v with
  | ref a =>
    cases hh : ctx.heap a with
    | none =>
      have hc : ∀ fuel, protoChain ctx fuel (.ref a) = [] := by
        intro fuel; cases fuel <;> simp [protoChain, hh]
      simp [isObjectValue, hh, hc]
    | some o =>
      cases hf : (protoChain ctx ctx.pwFuel (.ref a)).findSome?
          (fun p => ownCallableToJSON ctx p.2) with
      | none => simp [isObjectValue, hh, hf]
      | some fid => simp [isObjectValue, hh, hf]
  | undef =>
    have hc : ∀ fuel, protoChain ctx fuel .undef = [] := by
      intro fuel; cases fuel <;> simp [protoChain]
    simp [isObjectValue, hc]
  | null =>
    have hc : ∀ fuel, protoChain ctx fuel .null = [] := by
      intro fuel; cases fuel <;> simp [protoChain]
    simp [isObjectValue, hc]
  | boolean b =>
    have hc : ∀ fuel, protoChain ctx fuel (.boolean b) = [] := by
      intro fuel; cases fuel <;> simp [protoChain]
    simp [isObjectValue, hc]
  | integer i =>
    have hc : ∀ fuel, protoChain ctx fuel (.integer i) = [] := by
      intro fuel; cases fuel <;> simp [protoChain]
    simp [isObjectValue, hc]
  | number fin ti ts =>
    have hc : ∀ fuel, protoChain ctx fuel (.number fin ti ts) = [] := by
      intro fuel; cases fuel <;> simp [protoChain]
    simp [isObjectValue, hc]
  | int64 i =>
    have hc : ∀ fuel, protoChain ctx fuel (.int64 i) = [] := by
      intro fuel; cases fuel <;> simp [protoChain]
    simp [isObjectValue, hc]
  | uint64 n =>
    have hc : ∀ fuel, protoChain ctx fuel (.uint64 n) = [] := by
      intro fuel; cases fuel <;> simp [protoChain]
    simp [isObjectValue, hc]
  | str s =>
    have hc : ∀ fuel, protoChain ctx fuel (.str s) = [] := by
      intro fuel; cases fuel <;> simp [protoChain]
    simp [isObjectValue, hc]
  | symbol n =>
    have hc : ∀ fuel, protoChain ctx fuel (.symbol n) = [] := by
      intro fuel; cases fuel <;> simp [protoChain]
    simp [isObjectValue, hc]

/-- C3: the preprocessing performed by `StrHelper` is exactly the spec's pipeline —
first the toJSON hook (first prototype level exposing a callable `toJSON`, invoked
as `value.toJSON(key)`, stopping the walk), then the replacer transform
`replacer(holder, key, value)` when configured, then a single boxed-primitive
unwrap, with no re-application of hook or replacer afterwards. -/
theorem JSON_preprocess_pipeline (sess : Session) (key : String) (v holder : Value) :
    preprocessValue sess key v holder = preprocessSpec sess key v holder := by
  simp only [preprocessValue, preprocessSpec, applyReplacerTransformSpec]
  rw [preprocess_stage1_eq]

/-- C1: when the prepared value is a live non-callable heap object whose identity is
already on the cycle stack, `StrHelper` fails immediately with the
circular-structure TypeError, before any recursion into members (the statement
holds for one step regardless of the recursive entry) and with nothing emitted. -/
theorem JSON_cycle_fails_fast (sess : Session) (fuel : Nat) (key : String)
    (v holder : Value) (indent : Nat) (st : Stack) (a : Nat) (o : HeapObj)
    (hprep : preprocessValue sess key v holder = .ref a)
    (hheap : sess.ctx.heap a = some o)
    (hnc : isCallableData o.data = false)
    (hmem : a ∈ st) :
    strHelper sess (fuel+1) key v holder indent st
      = (.error .circularStructure, st) := by
  show strHelperBody sess (strHelper sess fuel) key v holder indent st = _
  rcases o with ⟨p, d⟩
  simp only [strHelperBody, hprep, hheap]
  cases d with
  | callable fid => simp [isCallableData] at hnc
  | plainObject props => simp [hmem]
  | array cs elems => simp [hmem]
  | arrayExotic props => simp [hmem]
  | numberObject fin ti ts => simp [hmem]
  | stringObject s => simp [hmem]
  | booleanObject b => simp [hmem]

/-- Witness: a self-referential object (`x.self = x`) one level into the recursion
hits the guard and the whole evaluation yields the circular-structure error. -/
theorem JSON_cycle_fails_fast_witness :
    preprocessValue exSessNone "self" (.ref 2) (.ref 2) = .ref 2 ∧
    exCtx.heap 2 = some ⟨Option.none, .plainObject [("self", .ref 2)]⟩ ∧
    strHelper exSessNone 4 "self" (.ref 2) (.ref 2) 1 [2]
      = (.error .circularStructure, [2]) :=
  ⟨rfl, rfl,
    JSON_cycle_fails_fast exSessNone 3 "self" (.ref 2) (.ref 2) 1 [2] 2
      ⟨Option.none, .plainObject [("self", .ref 2)]⟩ rfl rfl rfl (by simp)⟩

/-- C2: an array element whose per-index `Str` result is the omit signal renders as
the literal `null` (arrays are never sparse in the output), while an object member
whose `Str` result is the omit signal is dropped entirely — the member accumulator,
including its separator/emptiness flags, is left untouched. -/
theorem JSON_omit_asymmetry :
    (∀ (sess : Session) (recur : Recur) (index ha indent : Nat) (st st' : Stack),
       strIndexBody sess recur index ha indent st = (.ok Option.none, st') →
       getArrayElementString sess recur index ha indent st = (.ok "null", st')) ∧
    (∀ (sess : Session) (recur : Recur) (name : String) (hv : Value)
       (pv : Option Value) (indent : Nat) (acc : MemberAcc) (st st' : Stack),
       strKeyBody sess recur name hv pv indent st = (.ok Option.none, st') →
       stringifyMemberObject sess recur name hv pv indent acc st = (.ok acc, st')) := by
  constructor
  · intro sess recur index ha indent st st' h
    unfold getArrayElementString
    rw [h]
  · intro sess recur name hv pv indent acc st st' h
    unfold stringifyMemberObject
    rw [h]

/-- Witness: the undefined element of `[undefined, 1]` renders as `null`, and the
undefined-valued member `a` of `{a: undefined, b: 1}` leaves the accumulator
unchanged. -/
theorem JSON_omit_asymmetry_witness :
    (strIndexBody exSessNone (strHelper exSessNone 3) 0 1 1 []
        = (.ok Option.none, []) ∧
      getArrayElementString exSessNone (strHelper exSessNone 3) 0 1 1 []
        = (.ok "null", [])) ∧
    (strKeyBody exSessNone (strHelper exSessNone 3) "a" (.ref 0) (some .undef) 1 []
        = (.ok Option.none, []) ∧
      stringifyMemberObject exSessNone (strHelper exSessNone 3) "a" (.ref 0)
          (some .undef) 1 ⟨"", true, true⟩ [] = (.ok ⟨"", true, true⟩, [])) :=
  ⟨⟨rfl, JSON_omit_asymmetry.1 exSessNone (strHelper exSessNone 3) 0 1 1 [] [] rfl⟩,
   ⟨rfl, JSON_omit_asymmetry.2 exSessNone (strHelper exSessNone 3) "a" (.ref 0)
      (some .undef) 1 ⟨"", true, true⟩ [] [] rfl⟩⟩

/-- C8: an explicit empty name filter suppresses all members of any object,
producing the empty-object literal whatever the gap; and, on any path, a member
loop that produced no members assembles to exactly the empty-object literal. -/
theorem JSON_empty_members_empty_object :
    (∀ (sess : Session) (recur : Recur) (selfVal : Value) (d : ObjData)
       (indent : Nat) (st : Stack), sess.replacer = .nameFilter [] →
       stringifyObjectBody sess recur selfVal d indent st = (.ok "\x7b\x7d", st)) ∧
    (∀ (gap : Option String) (indent : Nat) (acc : MemberAcc), acc.isEmpty = true →
       assembleObject gap indent acc = "\x7b\x7d") := by
  constructor
  · intro sess recur selfVal d indent st h
    simp only [stringifyObjectBody, h, List.map_nil]
    simp [stringifyMembersLoop, assembleObject]
  · intro gap indent acc h
    simp [assembleObject, h]

/-- Witness: the three-member object under the empty filter (with a two-space gap)
serializes to the empty-object literal, and an untouched accumulator assembles to
the empty-object literal. -/
theorem JSON_empty_members_empty_object_witness :
    exSessF0.replacer = .nameFilter [] ∧
    stringifyObjectBody exSessF0 (strHelper exSessF0 3) (.ref 4)
        (.plainObject [("a", .integer 1), ("b", .integer 2), ("c", .integer 3)]) 0 []
      = (.ok "\x7b\x7d", []) ∧
    (MemberAcc.mk "" true true).isEmpty = true ∧
    assembleObject (some "  ") 0 ⟨"", true, true⟩ = "\x7b\x7d" :=
  ⟨rfl,
   JSON_empty_members_empty_object.1 exSessF0 (strHelper exSessF0 3) (.ref 4)
     (.plainObject [("a", .integer 1), ("b", .integer 2), ("c", .integer 3)]) 0 [] rfl,
   rfl,
   JSON_empty_members_empty_object.2 (some "  ") 0 ⟨"", true, true⟩ rfl⟩

/-- C10: on a non-cross-site genuine array holder, an index whose raw element is
undefined (or absent) renders as `null` with no preprocessing at all: the result is
the same for every recursive entry and every session, in particular independent of
any configured replacer transform or toJSON hook. -/
theorem JSON_array_undefined_skips_preprocessing (sess : Session) (recur : Recur)
    (index ha : Nat) (p : Option Nat) (elems : List (Option Value)) (indent : Nat)
    (st : Stack)
    (hheap : sess.ctx.heap ha = some ⟨p, .array false elems⟩)
    (helem : directGetItem elems index = .undef) :
    getArrayElementString sess recur index ha indent st = (.ok "null", st) := by
  simp [getArrayElementString, strIndexBody, hheap, helem]

/-- Witness: under a session whose replacer transform would substitute the string
`X` for anything it is invoked on, the undefined element of `[undefined, 1]` still
renders as `null`. -/
theorem JSON_array_undefined_skips_preprocessing_witness :
    exCtx.heap 1 = some ⟨Option.none, .array false [some .undef, some (.integer 1)]⟩ ∧
    directGetItem [some .undef, some (.integer 1)] 0 = .undef ∧
    exSessT.replacer = .transform 7 ∧
    getArrayElementString exSessT (strHelper exSessT 3) 0 1 1 [] = (.ok "null", []) :=
  ⟨rfl, rfl, rfl,
    JSON_array_undefined_skips_preprocessing exSessT (strHelper exSessT 3) 0 1
      Option.none [some .undef, some (.integer 1)] 1 [] rfl rfl⟩

/-! Stack-preservation lemmas: every serializer function leaves the cycle stack as
it found it on every successful exit (the error exits are exactly the ones that do
not restore it). -/

theorem strKeyBody_preserves (sess : Session) (recur : Recur)
    (hrec : PreservesStack recur) (key : String) (holder : Value)
    (value? : Option Value) (indent : Nat) (st : Stack) (r : Option String)
    (st' : Stack)
    (h : strKeyBody sess recur key holder value? indent st = (.ok r, st')) :
    st' = st := by
  unfold strKeyBody at h
  split at h
  · exact hrec _ _ _ _ _ _ _ h
  · split at h
    · injection h with h1 h2; exact h2.symm
    · exact hrec _ _ _ _ _ _ _ h

theorem strIndexBody_preserves (sess : Session) (recur : Recur)
    (hrec : PreservesStack recur) (index ha indent : Nat) (st : Stack)
    (r : Option String) (st' : Stack)
    (h : strIndexBody sess recur index ha indent st = (.ok r, st')) :
    st' = st := by
  simp only [strIndexBody] at h
  split at h
  · split at h
    · injection h with h1 h2; exact h2.symm
    · exact hrec _ _ _ _ _ _ _ h
  · split at h
    · injection h with h1 h2; exact h2.symm
    · split at h
      · injection h with h1 h2; exact h2.symm
      · exact hrec _ _ _ _ _ _ _ h

theorem getArrayElementString_preserves (sess : Session) (recur : Recur)
    (hrec : PreservesStack recur) (index ha indent : Nat) (st : Stack) (s : String)
    (st' : Stack)
    (h : getArrayElementString sess recur index ha indent st = (.ok s, st')) :
    st' = st := by
  unfold getArrayElementString at h
  split at h
  · simp at h
  · next st1 heq =>
    injection h with h1 h2
    exact h2.symm.trans (strIndexBody_preserves sess recur hrec _ _ _ _ _ _ heq)
  · next s1 st1 heq =>
    injection h with h1 h2
    exact h2.symm.trans (strIndexBody_preserves sess recur hrec _ _ _ _ _ _ heq)

theorem arrayElemsLoop_preserves (sess : Session) (recur : Recur)
    (hrec : PreservesStack recur) (ha cur : Nat) (sep : String) :
    ∀ (n k : Nat) (out : String) (isFirst : Bool) (st : Stack) (s : String)
      (st' : Stack),
      arrayElemsLoop sess recur ha cur sep k n out isFirst st = (.ok s, st') →
      st' = st := by
  intro n
  induction n with
  | zero =>
    intro k out isFirst st s st' h
    simp only [arrayElemsLoop] at h
    injection h with h1 h2; exact h2.symm
  | succ m ih =>
    intro k out isFirst st s st' h
    simp only [arrayElemsLoop] at h
    split at h
    · simp at h
    · next s1 st1 heq =>
      have h1 := getArrayElementString_preserves sess recur hrec _ _ _ _ _ _ heq
      exact (ih _ _ _ _ _ _ h).trans h1

theorem stringifyMemberObject_preserves (sess : Session) (recur : Recur)
    (hrec : PreservesStack recur) (name : String) (hv : Value) (pv : Option Value)
    (indent : Nat) (acc : MemberAcc) (st : Stack) (acc' : MemberAcc) (st' : Stack)
    (h : stringifyMemberObject sess recur name hv pv indent acc st = (.ok acc', st')) :
    st' = st := by
  unfold stringifyMemberObject at h
  split at h
  · simp at h
  · next st1 heq =>
    injection h with h1 h2
    exact h2.symm.trans (strKeyBody_preserves sess recur hrec _ _ _ _ _ _ _ heq)
  · next s1 st1 heq =>
    injection h with h1 h2
    exact h2.symm.trans (strKeyBody_preserves sess recur hrec _ _ _ _ _ _ _ heq)

theorem stringifyMembersLoop_preserves (sess : Session) (recur : Recur)
    (hrec : PreservesStack recur) (selfVal : Value) (cur : Nat) :
    ∀ (members : List (String × Option Value)) (acc : MemberAcc) (st : Stack)
      (acc' : MemberAcc) (st' : Stack),
      stringifyMembersLoop sess recur selfVal cur members acc st = (.ok acc', st') →
      st' = st := by
  intro members
  induction members with
  | nil =>
    intro acc st acc' st' h
    simp only [stringifyMembersLoop] at h
    injection h with h1 h2; exact h2.symm
  | cons m rest ih =>
    intro acc st acc' st' h
    simp only [stringifyMembersLoop] at h
    split at h
    · simp at h
    · next acc1 st1 heq =>
      have h1 := stringifyMemberObject_preserves sess recur hrec _ _ _ _ _ _ _ _ heq
      exact (ih _ _ _ _ h).trans h1

theorem stringifyObjectBody_preserves (sess : Session) (recur : Recur)
    (hrec : PreservesStack recur) (selfVal : Value) (d : ObjData) (indent : Nat)
    (st : Stack) (s : String) (st' : Stack)
    (h : stringifyObjectBody sess recur selfVal d indent st = (.ok s, st')) :
    st' = st := by
  simp only [stringifyObjectBody] at h
  split at h
  · simp at h
  · next acc1 st1 heq =>
    injection h with h1 h2
    exact h2.symm.trans
      (stringifyMembersLoop_preserves sess recur hrec _ _ _ _ _ _ _ heq)

theorem stringifyArrayBody_preserves (sess : Session) (recur : Recur)
    (hrec : PreservesStack recur) (a : Nat) (d : ObjData) (indent : Nat)
    (st : Stack) (s : String) (st' : Stack)
    (h : stringifyArrayBody sess recur a d indent st = (.ok s, st')) :
    st' = st := by
  simp only [stringifyArrayBody] at h
  split at h
  · simp at h
  · split at h
    · injection h with h1 h2; exact h2.symm
    · split at h
      · simp at h
      · next s1 st1 heq =>
        have h1 : st1 = st := by
          split at heq
          · exact getArrayElementString_preserves sess recur hrec _ _ _ _ _ _ heq
          · exact arrayElemsLoop_preserves sess recur hrec _ _ _ _ _ _ _ _ _ _ heq
        split at h
        · injection h with h2 h3; exact h3.symm.trans h1
        · injection h with h2 h3; exact h3.symm.trans h1

theorem strHelperBody_preserves (sess : Session) (recur : Recur)
    (hrec : PreservesStack recur) (key : String) (v holder : Value) (indent : Nat)
    (st : Stack) (r : Option String) (st' : Stack)
    (h : strHelperBody sess recur key v holder indent st = (.ok r, st')) :
    st' = st := by
  simp only [strHelperBody] at h
  split at h
  any_goals (injection h with h1 h2; exact h2.symm)
  · -- ref case
    split at h
    · injection h with h1 h2; exact h2.symm
    · split at h
      · injection h with h1 h2; exact h2.symm
      · -- array
        split at h
        · simp at h
        · split at h
          · simp at h
          · next a _ _ _ _ s1 st1 heq =>
            injection h with h1 h2
            have h3 := stringifyArrayBody_preserves sess recur hrec _ _ _ _ _ _ heq
            rw [← h2, h3]
            rfl
      · -- arrayExotic
        split at h
        · simp at h
        · split at h
          · simp at h
          · next a _ _ _ s1 st1 heq =>
            injection h with h1 h2
            have h3 := stringifyArrayBody_preserves sess recur hrec _ _ _ _ _ _ heq
            rw [← h2, h3]
            rfl
      · -- other object data
        split at h
        · simp at h
        · split at h
          · simp at h
          · next s1 st1 heq =>
            injection h with h1 h2
            have h3 := stringifyObjectBody_preserves sess recur hrec _ _ _ _ _ _ heq
            rw [← h2, h3]
            rfl

theorem strHelper_preserves (sess : Session) :
    ∀ fuel, PreservesStack (strHelper sess fuel) := by
  intro fuel
  induction fuel with
  | zero =>
    intro key v holder indent st r st' h
    simp [strHelper] at h
  | succ f ih =>
    intro key v holder indent st r st' h
    exact strHelperBody_preserves sess _ ih key v holder indent st r st' h

/-- C6 counterexample: the claim's "popped immediately after, on every exit path
including errors" fails on the code — `objectStack->Pop()` is a plain statement
after the composite call, not a scoped guard, so when a nested member raises the
circular-structure error the identities of the outer frames stay on the stack as
the call aborts: serializing `{a: y}` with `y.self = y` ends with the stack still
holding both identities. -/
theorem JSON_cycle_stack_error_counterexample :
    (jsonStringifyWith exCtx 10 99 (.ref 6) Option.none .null).1
      = .error .circularStructure ∧
    (jsonStringifyWith exCtx 10 99 (.ref 6) Option.none .null).2 = [2, 6] ∧
    ([2, 6] : Stack) ≠ [] := by
  refine ⟨rfl, rfl, by simp⟩

/-- C6 amended: an identity is pushed immediately before recursing into the
object's members and popped immediately after on every successful exit, so every
successfully completing call leaves the cycle stack exactly as it found it; on an
error exit the pop is skipped and the error aborts the entire call, the
session-owned stack being discarded with the session. -/
theorem JSON_cycle_stack_balanced_on_success (sess : Session) (fuel : Nat)
    (key : String) (v holder : Value) (indent : Nat) (st : Stack)
    (r : Option String) (st' : Stack)
    (h : strHelper sess fuel key v holder indent st = (.ok r, st')) : st' = st :=
  strHelper_preserves sess fuel key v holder indent st r st' h

/-- Witness: a successful serialization (of `{a: undefined, b: 1}`) returns the
stack it started from. -/
theorem JSON_cycle_stack_balanced_on_success_witness :
    strHelper exSessNone 5 "" (.ref 0) (.ref 99) 0 []
      = (.ok (some "\x7b\"b\":1\x7d"), []) ∧
    ([] : Stack) = [] :=
  ⟨rfl, JSON_cycle_stack_balanced_on_success exSessNone 5 "" (.ref 0) (.ref 99) 0 []
      (some "\x7b\"b\":1\x7d") [] rfl⟩

/-! Helper lemmas for the over-length array analysis. -/

theorem getD_replicate_some_null :
    ∀ n k, (List.replicate n (some Value.null)).getD k Option.none
      = if k < n then some .null else Option.none := by
  intro n
  induction n with
  | zero => intro k; simp [List.getD]
  | succ m ih =>
    intro k
    cases k with
    | zero => simp [List.replicate]
    | succ j =>
      simp only [List.replicate, List.getD_cons_succ, ih]
      simp [Nat.succ_lt_succ_iff]

theorem directGetItem_replicate_null (n k : Nat) :
    directGetItem (List.replicate n (some Value.null)) k
      = if k < n then .null else .undef := by
  unfold directGetItem
  rw [getD_replicate_some_null]
  by_cases hk : k < n <;> simp [hk]

theorem bigElemNull (indent k : Nat) (st : Stack) :
    getArrayElementString bigSess (strHelper bigSess 1) k 0 indent st
      = (.ok "null", st) := by
  have hh : bigSess.ctx.heap 0
      = some ⟨Option.none, .array false (List.replicate MaxCharCount (some .null))⟩ :=
    rfl
  by_cases hk : k < MaxCharCount
  · have hv : directGetItem (List.replicate MaxCharCount (some Value.null)) k
        = .null := by
      rw [directGetItem_replicate_null]; simp [hk]
    have hnull : strHelper bigSess 1 (toString k) .null (.ref 0) indent st
        = (.ok (some "null"), st) := rfl
    simp only [getArrayElementString, strIndexBody, hh]
    rw [hv]
    simp [hnull]
  · have hv : directGetItem (List.replicate MaxCharCount (some Value.null)) k
        = .undef := by
      rw [directGetItem_replicate_null]; simp [hk]
    simp only [getArrayElementString, strIndexBody, hh]
    rw [hv]
    simp

theorem bigLoopOk (sep : String) (cur : Nat) :
    ∀ (n k : Nat) (out : String) (isFirst : Bool) (st : Stack),
      ∃ s, arrayElemsLoop bigSess (strHelper bigSess 1) 0 cur sep k n out isFirst st
        = (.ok s, st) := by
  intro n
  induction n with
  | zero => intro k out isFirst st; exact ⟨out, rfl⟩
  | succ m ih =>
    intro k out isFirst st
    simp only [arrayElemsLoop]
    rw [bigElemNull cur k st]
    exact ih (k+1) (out ++ (if isFirst then "" else sep) ++ "null") false st

/-- Unfolding of `StringifyArray` on a genuine array with at least two elements:
the internal length is used with no range check and the element loop runs. -/
theorem stringifyArrayBody_array_of_len (sess : Session) (recur : Recur) (a : Nat)
    (cs : Bool) (elems : List (Option Value)) (indent : Nat) (st : Stack)
    (h0 : elems.length ≠ 0) (h1 : elems.length ≠ 1) :
    stringifyArrayBody sess recur a (.array cs elems) indent st =
      (match arrayElemsLoop sess recur a (indent+1)
          (getMemberSeparator sess.gap (getIndentString sess.gap (indent+1)))
          0 elems.length "" true st with
       | (.error e, st') => (.error e, st')
       | (.ok s, st') =>
         match sess.gap with
         | some _ =>
           (.ok ("[" ++ "\n" ++ getIndentString sess.gap (indent+1) ++ s ++ "\n"
             ++ getIndentString sess.gap indent ++ "]"), st')
         | Option.none => (.ok ("[" ++ s ++ "]"), st')) := by
  simp only [stringifyArrayBody]
  rw [if_neg h0, if_neg h1]

/-- C7 counterexample: a genuine `JavascriptArray` of length `MaxCharCount` (at the
implementation's maximum representable string size) does NOT fail with the
RangeError kind — the early length check exists only on the path where the length
is read via the length property (`ToLength(OP_GetLength(...))`), while a genuine
array's internal uint32 length is used unchecked and serialization proceeds. -/
theorem JSON_overlength_rangeError_counterexample :
    MaxCharCount ≤ (List.replicate MaxCharCount (some Value.null)).length ∧
    (stringifyArrayBody bigSess (strHelper bigSess 1) 0
        (.array false (List.replicate MaxCharCount (some .null))) 0 []).1
      ≠ .error .outOfBoundString := by
  constructor
  · rw [List.length_replicate]
  · obtain ⟨s, hs⟩ := bigLoopOk
      (getMemberSeparator bigSess.gap (getIndentString bigSess.gap (0+1))) (0+1)
      MaxCharCount 0 "" true []
    rw [stringifyArrayBody_array_of_len bigSess (strHelper bigSess 1) 0 false
      (List.replicate MaxCharCount (some .null)) 0 []
      (by rw [List.length_replicate]; decide)
      (by rw [List.length_replicate]; decide)]
    rw [List.length_replicate, hs]
    exact fun hc => Except.noConfusion hc

/-- C7 amended: for an array-like host that is not a genuine `JavascriptArray`
(its length read via the length property through `ToLength`), a length at or
beyond `MaxCharCount` fails with the RangeError kind before any element is
visited; a genuine array's internal length is used without this check. -/
theorem JSON_overlength_rangeError_amended (sess : Session) (recur : Recur)
    (a : Nat) (props : List (String × Value)) (indent : Nat) (st : Stack)
    (hlen : MaxCharCount ≤ toLength (getProperty sess.ctx (.ref a) "length")) :
    stringifyArrayBody sess recur a (.arrayExotic props) indent st
      = (.error .outOfBoundString, st) := by
  simp only [stringifyArrayBody]
  rw [if_pos hlen]

/-- Witness: an array-like host whose length property reads as 2^31 raises the
RangeError kind immediately. -/
theorem JSON_overlength_rangeError_amended_witness :
    MaxCharCount ≤ toLength (getProperty exCtx (.ref 8) "length") ∧
    stringifyArrayBody exSessNone (strHelper exSessNone 3) 8
        (.arrayExotic [("length", .number true 2147483648 "2147483648")]) 0 []
      = (.error .outOfBoundString, []) :=
  ⟨by decide,
    JSON_overlength_rangeError_amended exSessNone (strHelper exSessNone 3) 8
      [("length", .number true 2147483648 "2147483648")] 0 [] (by decide)⟩
